import Mathlib

/-!
Verification of the supply-chain orchestration core (agent.py, dashboard.py,
orchestrator.py) via a shallow embedding in Lean.

Modelling conventions:
* Python data reaching the agents from `json.loads` is modelled by the
  inductive `JValue` (JSON values; Python `int` and `float` are kept apart
  as `jnum`/`jfloat`, floats as exact decimal rationals since the code never
  does arithmetic on them, only passes them through).
* The text-generation backend (`groq` client) is an external collaborator;
  a call is modelled by an oracle outcome `GenOutcome` (`success text` for a
  returned message, `failure` for any raised exception).  The prompt string
  built from the structured inputs is consumed only by the backend, so it is
  folded into the oracle outcome and not materialised.
* Python `dict` objects are modelled as insertion-ordered association lists
  with overwrite-in-place semantics (`dictInsert`), matching `d[k] = v`.
* Fallible Python code (exceptions) is modelled with `Option`: `none` marks
  the paths on which the original code raises (or returns a falsy value
  where the caller tests truthiness).
-/

namespace SupplyChain

/-- Opening brace character, kept as a named constant. -/
def lbrace : Char := Char.ofNat 123

/-- Closing brace character, kept as a named constant. -/
def rbrace : Char := Char.ofNat 125

/-- Prefix test on character lists (used to model Python's substring search). -/
def isPrefixChars : List Char → List Char → Bool
  | [], _ => true
  | _ :: _, [] => false
  | p :: ps, c :: cs => p == c && isPrefixChars ps cs

/-- Scan for an occurrence of `pat` anywhere in `cs`. -/
def containsAt (pat : List Char) : List Char → Bool
  | [] => isPrefixChars pat []
  | c :: cs => isPrefixChars pat (c :: cs) || containsAt pat cs

/-- Model of Python's `pat in s` substring containment. -/
def strContains (s pat : String) : Bool := containsAt pat.data s.data

/-- Index of the first occurrence of `pat` as a substring (for stating
claims about the order identifiers occur in a text). -/
def substrIdx (s pat : String) : Option Nat :=
  (List.range (s.data.length + 1)).find? (fun i => isPrefixChars pat.data (s.data.drop i))

/-- First index satisfying `p`. -/
def firstIdx (p : Char → Bool) : List Char → Option Nat
  | [] => none
  | c :: cs => if p c then some 0 else (firstIdx p cs).map (· + 1)

/-- Last index satisfying `p`. -/
def lastIdx (p : Char → Bool) : List Char → Option Nat
  | [] => none
  | c :: cs =>
    match lastIdx p cs with
    | some j => some (j + 1)
    | none => if p c then some 0 else none

/-- Whitespace characters for Python `str.strip` / `float()` stripping
(the ASCII regime; the code never feeds it exotic Unicode spacing). -/
def isPyWs (c : Char) : Bool :=
  c = ' ' ∨ c = '\t' ∨ c = '\n' ∨ c = '\r' ∨ c.toNat = 11 ∨ c.toNat = 12

/-- Model of Python `str.strip()` with no argument. -/
def pyStrip (s : String) : String :=
  String.mk (((s.data.dropWhile isPyWs).reverse.dropWhile isPyWs).reverse)

/-- Value of a list of decimal digit characters. -/
def digitsToNat (ds : List Char) : Nat := ds.foldl (fun a c => a * 10 + (c.toNat - 48)) 0

/-- Decimal digits of a natural number (fuel-driven; `fuel > n` suffices). -/
def natRepr (fuel : Nat) (n : Nat) : List Char :=
  match fuel with
  | 0 => []
  | Nat.succ f => if n < 10 then [Char.ofNat (48 + n)] else natRepr f (n / 10) ++ [Char.ofNat (48 + n % 10)]

/-- Model of Python `str` on an `int`. -/
def intStr (n : Int) : String :=
  if n < 0 then "-" ++ String.mk (natRepr (n.natAbs + 1) n.natAbs)
  else String.mk (natRepr (n.toNat + 1) n.toNat)

/-- JSON values as produced by `json.loads`, doubling as the fragment of
Python runtime values the agents handle.  `jnum` is a Python `int`,
`jfloat` a Python `float` (idealised as an exact rational). -/
inductive JValue where
  | jnull : JValue
  | jbool : Bool → JValue
  | jnum : Int → JValue
  | jfloat : ℚ → JValue
  | jstr : String → JValue
  | jarr : List JValue → JValue
  | jobj : List (String × JValue) → JValue

/-- Python `dict` lookup `d.get(k)` on an insertion-ordered association list. -/
def dictGet? {α : Type} (d : List (String × α)) (k : String) : Option α :=
  (d.find? (fun p => p.1 == k)).map Prod.snd

/-- Python `d.get(k, default)`. -/
def dictGetD {α : Type} (d : List (String × α)) (k : String) (default : α) : α :=
  (dictGet? d k).getD default

/-- Python `d[k] = v`: replace in place if the key exists, else append. -/
def dictInsert {α : Type} : List (String × α) → String → α → List (String × α)
  | [], k, v => [(k, v)]
  | (k', v') :: t, k, v => if k' = k then (k, v) :: t else (k', v') :: dictInsert t k v

/-- Fractional decimal digits of `0 ≤ q < 1` (fuel-bounded). -/
def fracDigits : Nat → ℚ → List Char
  | 0, _ => []
  | Nat.succ fuel, q =>
    if q = 0 then []
    else
      let q10 := q * 10
      Char.ofNat (48 + q10.floor.toNat) :: fracDigits fuel (q10 - (q10.floor : ℚ))

/-- Model of Python `str` on a `float` (plain decimal rendering; the
scientific-notation regime of `repr` is outside the fragment the code
exercises).  The result always contains a decimal point. -/
def pyFloatRepr (q : ℚ) : String :=
  let sign := if q < 0 then "-" else ""
  let a := |q|
  let frac := a - (a.floor : ℚ)
  let fs := fracDigits 32 frac
  sign ++ toString a.floor.toNat ++ "." ++ (if fs.isEmpty then "0" else String.mk fs)

mutual

/-- Model of Python `repr` on the embedded values (only its use inside
`str` of containers matters to the code). -/
def pyRepr : JValue → String
  | JValue.jnull => "None"
  | JValue.jbool b => if b then "True" else "False"
  | JValue.jnum n => intStr n
  | JValue.jfloat q => pyFloatRepr q
  | JValue.jstr s => String.singleton (Char.ofNat 39) ++ s ++ String.singleton (Char.ofNat 39)
  | JValue.jarr xs => "[" ++ pyReprList xs ++ "]"
  | JValue.jobj fs => "\x7b" ++ pyReprFields fs ++ "\x7d"

/-- Comma-separated reprs of list elements. -/
def pyReprList : List JValue → String
  | [] => ""
  | [x] => pyRepr x
  | x :: xs => pyRepr x ++ ", " ++ pyReprList xs

/-- Comma-separated reprs of dict items. -/
def pyReprFields : List (String × JValue) → String
  | [] => ""
  | [(k, v)] => String.singleton (Char.ofNat 39) ++ k ++ String.singleton (Char.ofNat 39) ++ ": " ++ pyRepr v
  | (k, v) :: fs =>
      String.singleton (Char.ofNat 39) ++ k ++ String.singleton (Char.ofNat 39) ++ ": " ++ pyRepr v ++ ", " ++ pyReprFields fs

end

/-- Model of Python `str()` on the embedded values. -/
def pyStr : JValue → String
  | JValue.jnull => "None"
  | JValue.jbool b => if b then "True" else "False"
  | JValue.jnum n => intStr n
  | JValue.jfloat q => pyFloatRepr q
  | JValue.jstr s => s
  | JValue.jarr xs => pyRepr (JValue.jarr xs)
  | JValue.jobj fs => pyRepr (JValue.jobj fs)

/-- Model of Python `str.isdigit`: non-empty and all decimal digits. -/
def pyIsDigit (s : String) : Bool := !s.data.isEmpty && s.data.all Char.isDigit

/-- Model of Python `int()` on the values whose `str()` is all digits
(the only values the code applies it to); other branches give the values
`int()` would produce where defined. -/
def pyInt : JValue → Int
  | JValue.jnum n => n
  | JValue.jbool b => if b then 1 else 0
  | JValue.jstr s => Int.ofNat (digitsToNat s.data)
  | JValue.jfloat q => q.floor
  | _ => 0

/-- Model of Python `float()`: succeeds on numbers, booleans and numeric
strings, fails (raises) elsewhere. -/
def parseFloatStr (s : String) : Option ℚ :=
  let cs := (pyStrip s).data
  let signed : Bool × List Char :=
    match cs with
    | c :: rest => if c = '-' then (true, rest) else if c = '+' then (false, cs.tail) else (false, cs)
    | [] => (false, [])
  let neg := signed.1
  let cs1 := signed.2
  let ds := cs1.takeWhile Char.isDigit
  let cs2 := cs1.dropWhile Char.isDigit
  match cs2 with
  | [] =>
    if ds.isEmpty then none
    else some ((if neg then -1 else 1) * ((digitsToNat ds : ℚ)))
  | c :: cs3 =>
    if c = '.' then
      let fs := cs3.takeWhile Char.isDigit
      let cs4 := cs3.dropWhile Char.isDigit
      if cs4.isEmpty && (!ds.isEmpty || !fs.isEmpty) then
        some ((if neg then -1 else 1) * ((digitsToNat ds : ℚ) + (digitsToNat fs : ℚ) / (10 : ℚ) ^ fs.length))
      else none
    else none

/-- Python `float()` on an embedded value; `none` marks a raised
`TypeError`/`ValueError`. -/
def pyFloat : JValue → Option ℚ
  | JValue.jnum n => some (n : ℚ)
  | JValue.jfloat q => some q
  | JValue.jbool b => some (if b then 1 else 0)
  | JValue.jstr s => parseFloatStr s
  | _ => none

/-- JSON whitespace skipping. -/
def skipWs : List Char → List Char
  | [] => []
  | c :: cs => if c = ' ' ∨ c = '\t' ∨ c = '\n' ∨ c = '\r' then skipWs cs else c :: cs

/-- Hexadecimal digit value. -/
def hexVal (c : Char) : Option Nat :=
  if c.isDigit then some (c.toNat - 48)
  else if 'a' ≤ c ∧ c ≤ 'f' then some (c.toNat - 87)
  else if 'A' ≤ c ∧ c ≤ 'F' then some (c.toNat - 55)
  else none

/-- Match a fixed literal tail (for `true` / `false` / `null`). -/
def stripLit (lit : List Char) (cs : List Char) (v : JValue) : Option (JValue × List Char) :=
  if isPrefixChars lit cs then some (v, cs.drop lit.length) else none

/-- Body of a JSON string after the opening quote; returns the decoded
string and the rest of the input. -/
def parseStringBody : List Char → List Char → Option (String × List Char)
  | [], _ => none
  | c :: cs, acc =>
    if c = '"' then some (String.mk acc.reverse, cs)
    else if c = '\\' then
      match cs with
      | [] => none
      | e :: cs2 =>
        if e = '"' then parseStringBody cs2 ('"' :: acc)
        else if e = '\\' then parseStringBody cs2 ('\\' :: acc)
        else if e = '/' then parseStringBody cs2 ('/' :: acc)
        else if e = 'n' then parseStringBody cs2 ('\n' :: acc)
        else if e = 't' then parseStringBody cs2 ('\t' :: acc)
        else if e = 'r' then parseStringBody cs2 ('\r' :: acc)
        else if e = 'b' then parseStringBody cs2 (Char.ofNat 8 :: acc)
        else if e = 'f' then parseStringBody cs2 (Char.ofNat 12 :: acc)
        else if e = 'u' then
          match cs2 with
          | h1 :: h2 :: h3 :: h4 :: cs3 =>
            match hexVal h1, hexVal h2, hexVal h3, hexVal h4 with
            | some a, some b, some c2, some d =>
                parseStringBody cs3 (Char.ofNat (((a * 16 + b) * 16 + c2) * 16 + d) :: acc)
            | _, _, _, _ => none
          | _ => none
        else none
    else if c.toNat < 32 then none
    else parseStringBody cs (c :: acc)

/-- JSON number (integer or decimal fraction; the exponent regime is outside
the fragment the backend contracts use). -/
def parseNumber (cs : List Char) : Option (JValue × List Char) :=
  let signed : Bool × List Char :=
    match cs with
    | c :: rest => if c = '-' then (true, rest) else (false, cs)
    | [] => (false, [])
  let neg := signed.1
  let cs1 := signed.2
  let ds := cs1.takeWhile Char.isDigit
  let cs2 := cs1.dropWhile Char.isDigit
  if ds.isEmpty then none
  else if ds.length > 1 ∧ ds.headD '0' = '0' then none
  else
    match cs2 with
    | c :: cs3 =>
      if c = '.' then
        let fs := cs3.takeWhile Char.isDigit
        let cs4 := cs3.dropWhile Char.isDigit
        if fs.isEmpty then none
        else
          let q : ℚ := (digitsToNat ds : ℚ) + (digitsToNat fs : ℚ) / (10 : ℚ) ^ fs.length
          some (JValue.jfloat (if neg then -q else q), cs4)
      else some (JValue.jnum (if neg then -(digitsToNat ds : Int) else (digitsToNat ds : Int)), cs2)
    | [] => some (JValue.jnum (if neg then -(digitsToNat ds : Int) else (digitsToNat ds : Int)), cs2)

mutual

/-- Recursive-descent JSON value parser (fuel-driven). -/
def parseVal : Nat → List Char → Option (JValue × List Char)
  | 0, _ => none
  | Nat.succ fuel, cs =>
    match skipWs cs with
    | [] => none
    | c :: rest =>
      if c = lbrace then
        match skipWs rest with
        | d :: rest2 => if d = rbrace then some (JValue.jobj [], rest2) else parseMembers fuel (d :: rest2) []
        | [] => none
      else if c = '[' then
        match skipWs rest with
        | d :: rest2 => if d = ']' then some (JValue.jarr [], rest2) else parseItems fuel (d :: rest2) []
        | [] => none
      else if c = '"' then (parseStringBody rest []).map (fun p => (JValue.jstr p.1, p.2))
      else if c = 't' then stripLit ['r', 'u', 'e'] rest (JValue.jbool true)
      else if c = 'f' then stripLit ['a', 'l', 's', 'e'] rest (JValue.jbool false)
      else if c = 'n' then stripLit ['u', 'l', 'l'] rest JValue.jnull
      else if c = '-' ∨ c.isDigit then parseNumber (c :: rest)
      else none

/-- Members of a JSON object (after the opening brace, non-empty case);
duplicate keys overwrite as in `json.loads`. -/
def parseMembers : Nat → List Char → List (String × JValue) → Option (JValue × List Char)
  | 0, _, _ => none
  | Nat.succ fuel, cs, acc =>
    match skipWs cs with
    | c :: rest =>
      if c = '"' then
        match parseStringBody rest [] with
        | some (key, rest2) =>
          match skipWs rest2 with
          | d :: rest3 =>
            if d = ':' then
              match parseVal fuel rest3 with
              | some (v, rest4) =>
                match skipWs rest4 with
                | e :: rest5 =>
                  if e = ',' then parseMembers fuel rest5 (dictInsert acc key v)
                  else if e = rbrace then some (JValue.jobj (dictInsert acc key v), rest5)
                  else none
                | [] => none
              | none => none
            else none
          | [] => none
        | none => none
      else none
    | [] => none

/-- Items of a JSON array (non-empty case). -/
def parseItems : Nat → List Char → List JValue → Option (JValue × List Char)
  | 0, _, _ => none
  | Nat.succ fuel, cs, acc =>
    match parseVal fuel cs with
    | some (v, rest) =>
      match skipWs rest with
      | c :: rest2 =>
        if c = ',' then parseItems fuel rest2 (acc ++ [v])
        else if c = ']' then some (JValue.jarr (acc ++ [v]), rest2)
        else none
      | [] => none
    | none => none

end

/-- Model of `json.loads`: parse one JSON value and require only trailing
whitespace; `none` marks a raised `JSONDecodeError`. -/
def jsonParse (s : String) : Option JValue :=
  match parseVal (s.length + 16) s.data with
  | some (v, rest) => if (skipWs rest).isEmpty then some v else none
  | none => none

/-- Model of `re.search` with the greedy dot-all brace pattern used by the
code: the span from the first opening brace to the last closing brace,
when the latter comes after the former. -/
def jsonSpan (s : String) : Option String :=
  match firstIdx (fun c => c == lbrace) s.data, lastIdx (fun c => c == rbrace) s.data with
  | some i, some j => if i < j then some (String.mk ((s.data.drop i).take (j - i + 1))) else none
  | _, _ => none

/-- Outcome of one text-generation backend call: `success text` models a
returned message content, `failure` models any raised exception (missing
client handle, transport error, rate limit, ...). -/
inductive GenOutcome where
  | success : String → GenOutcome
  | failure : GenOutcome
deriving DecidableEq

/-- Fixed offline demand-forecast constant of `DemandForecastAgent._offline_forecast`. -/
def offline_forecast : String :=
  "Demand forecast: LM741 120 in Europe, LM358 150 in North America, OP07 90 in Asia. " ++
  "Recommendations: increase LM358 production, maintain LM741, monitor OP07. Pricing: competitive for LM358."

/-- Fixed offline logistics constant of `LogisticsManagerAgent._offline_logistics`. -/
def offline_logistics : String :=
  "Logistics: consolidate EU shipments to Berlin by road, NA by air to NYC, AS by sea to Tokyo; docs prepared."

/-- Fixed offline production-plan constant of `ProductionSchedulerAgent._offline_plan`. -/
def offline_plan : String :=
  "Production plan: Produce LM358 600, LM741 300, OP07 100. Reorder OP07 (500), LM358 (300)."

/-- `DemandForecastAgent.generate_demand_forecast`: with no client or the
offline flag truthy in the shared context the fixed offline constant is
returned without calling the backend; otherwise the backend text is
returned stripped, any exception falling back to the offline constant.
The prompt (pure string formatting of the structured inputs) only feeds the
backend and is folded into the oracle outcome `resp`. -/
def generate_demand_forecast (client offlineFlag : Bool) (resp : GenOutcome) : String :=
  if !client || offlineFlag then offline_forecast
  else
    match resp with
    | GenOutcome.success t => pyStrip t
    | GenOutcome.failure => offline_forecast

/-- `LogisticsManagerAgent.generate_logistics_plan` (same degradation shape). -/
def generate_logistics_plan (client offlineFlag : Bool) (resp : GenOutcome) : String :=
  if !client || offlineFlag then offline_logistics
  else
    match resp with
    | GenOutcome.success t => pyStrip t
    | GenOutcome.failure => offline_logistics

/-- `ProductionSchedulerAgent.generate_production_plan` (same degradation shape). -/
def generate_production_plan (client offlineFlag : Bool) (resp : GenOutcome) : String :=
  if !client || offlineFlag then offline_plan
  else
    match resp with
    | GenOutcome.success t => pyStrip t
    | GenOutcome.failure => offline_plan

/-- Record returned by the component-catalog lookup boundary
(`_search_component` returns these fields as a dict). -/
structure ComponentData where
  manufacturer : String
  description : String
  stock : Int
  price : ℚ
  lead_time : Int
  alternatives : List String
deriving DecidableEq

/-- `ElectronicComponentAgent._search_component`: the simulated catalog
returns the same fixed mock record for every part number. -/
def search_component (part_number : String) : ComponentData :=
  ⟨"Texas Instruments", "High-speed operational amplifier", 1500, (49 : ℚ) / 20, 14,
   ["LM358", "OP07", "AD822"]⟩

/-- The `Component` dataclass of agent.py. -/
structure Component where
  part_number : String
  manufacturer : String
  description : String
  stock : Int
  price : ℚ
  lead_time : Int
  risk_score : ℚ
  alternatives : List String
deriving DecidableEq

/-- The `RiskAssessment` dataclass of agent.py.  The list fields hold
whatever value the parsed backend object supplied (Python does not enforce
the annotations), so they are embedded as raw `JValue`s. -/
structure RiskAssessment where
  component_id : String
  risk_factors : JValue
  risk_score : ℚ
  mitigation_strategies : JValue
  supplier_rating : ℚ

/-- The fallback `RiskAssessment` built in the outer `except` of
`_assess_risks`. -/
def fallbackAssessment (pn : String) : RiskAssessment :=
  ⟨pn,
   JValue.jarr [JValue.jstr "Supply chain risk", JValue.jstr "Price volatility"],
   5,
   JValue.jarr [JValue.jstr "Diversify suppliers", JValue.jstr "Monitor prices"],
   6⟩

/-- The inner default result dict substituted when no brace span is found in
the backend text. -/
def default_result : List (String × JValue) :=
  [("risk_factors", JValue.jarr [JValue.jstr "Supply chain risk", JValue.jstr "Price volatility"]),
   ("risk_score", JValue.jfloat 5),
   ("mitigation_strategies", JValue.jarr [JValue.jstr "Diversify suppliers", JValue.jstr "Monitor prices"]),
   ("supplier_rating", JValue.jfloat 6)]

/-- The parse step of `_assess_risks`: direct `json.loads`, then the brace
span, then the inner default dict when no span exists; `none` marks the
path on which `json.loads` of the span raises (handled by the outer
`except`). -/
def assessParsed (content : String) : Option JValue :=
  match jsonParse content with
  | some v => some v
  | none =>
    match jsonSpan content with
    | some sub => jsonParse sub
    | none => some (JValue.jobj default_result)

/-- The `RiskAssessment(...)` construction of `_assess_risks` lines 268-274:
`result.get` on a non-dict raises, and `float()` of a non-numeric field
raises; either exception reaches the outer `except` and yields the fixed
fallback record. -/
def coerce_assessment (part_number : String) (result : JValue) : RiskAssessment :=
  match result with
  | JValue.jobj fields =>
    match pyFloat (dictGetD fields "risk_score" (JValue.jfloat 5)),
          pyFloat (dictGetD fields "supplier_rating" (JValue.jfloat 5)) with
    | some rs, some sr =>
      ⟨part_number,
       dictGetD fields "risk_factors" (JValue.jarr []),
       rs,
       dictGetD fields "mitigation_strategies" (JValue.jarr []),
       sr⟩
    | _, _ => fallbackAssessment part_number
  | _ => fallbackAssessment part_number

/-- `ElectronicComponentAgent._assess_risks`: with no client the attribute
access on `None` raises at once; with a client, `resp` is the oracle
outcome of the backend call; `component_data` only feeds the prompt. -/
def assess_risks (client : Bool) (resp : GenOutcome) (part_number : String)
    (component_data : ComponentData) : RiskAssessment :=
  let _ := component_data
  if client then
    match resp with
    | GenOutcome.success content =>
      match assessParsed (pyStrip content) with
      | some v => coerce_assessment part_number v
      | none => fallbackAssessment part_number
    | GenOutcome.failure => fallbackAssessment part_number
  else fallbackAssessment part_number

/-- Mutable state of an `ElectronicComponentAgent`: the two identifier-keyed
stores `components_db` and `risk_assessments`. -/
structure AgentState where
  components_db : List (String × Component)
  risk_assessments : List (String × RiskAssessment)

/-- State of a freshly constructed agent. -/
def emptyAgentState : AgentState := ⟨[], []⟩

/-- `ElectronicComponentAgent.source_component`.  The lookup boundary is the
external collaborator parameter `search`; `none` covers both a falsy return
and an exception raised during the lookup (either way the method returns
`None` and writes nothing).  `quantity` is accepted and ignored, as in the
source. -/
def source_component (search : String → Option ComponentData) (client : Bool)
    (resp : GenOutcome) (st : AgentState) (part_number : String) (quantity : Int) :
    Option Component × AgentState :=
  let _ := quantity
  match search part_number with
  | none => (none, st)
  | some data =>
    let risk := assess_risks client resp part_number data
    let comp : Component :=
      ⟨part_number, data.manufacturer, data.description, data.stock, data.price,
       data.lead_time, risk.risk_score, data.alternatives⟩
    (some comp,
     ⟨dictInsert st.components_db part_number comp,
      dictInsert st.risk_assessments part_number risk⟩)

/-- The search function of the actual agent: the mock catalog record is a
non-empty dict, hence truthy, for every part number. -/
def actualSearch : String → Option ComponentData := fun pn => some (search_component pn)

/-- The `component_info` sub-dict of a risk report. -/
structure ComponentInfo where
  manufacturer : String
  stock : Int
  price : ℚ
  lead_time : Int

/-- The dict returned by `ElectronicComponentAgent.get_risk_report`. -/
structure RiskReport where
  part_number : String
  risk_score : ℚ
  risk_factors : JValue
  mitigation_strategies : JValue
  supplier_rating : ℚ
  component_info : Option ComponentInfo

/-- `ElectronicComponentAgent.get_risk_report`. -/
def get_risk_report (st : AgentState) (part_number : String) : Option RiskReport :=
  match dictGet? st.risk_assessments part_number with
  | none => none
  | some a =>
    some ⟨part_number, a.risk_score, a.risk_factors, a.mitigation_strategies, a.supplier_rating,
          (dictGet? st.components_db part_number).map
            (fun c => ⟨c.manufacturer, c.stock, c.price, c.lead_time⟩)⟩

/-- A normalized requirement record: the Requirement Extractor only ever
emits a string identifier and an integer quantity, which is the interface
`source_requirements` consumes. -/
structure Requirement where
  part_number : String
  quantity : Int
deriving DecidableEq

/-- One value of the identifier-keyed Sourcing Result map:
`{"requested_quantity": ..., "component": ... or None, "risk_report": ... or None}`. -/
structure SourcingEntry where
  requested_quantity : Int
  component : Option Component
  risk_report : Option RiskReport

/-- Offline heuristic branch of
`ComponentSourcingAgent.extract_requirements_from_forecast`: scan the fixed
vocabulary in order and emit the fixed heuristic quantity per token found
in the text. -/
def extract_requirements_offline (forecast_report : String) : List Requirement :=
  ["LM741", "LM358", "OP07"].filterMap (fun token =>
    if strContains forecast_report token then
      some ⟨token, if token = "LM741" then 100 else if token = "LM358" then 80 else 60⟩
    else none)

/-- Normalization of a single parsed requirement element (agent.py lines
415-419): stringify-and-trim the identifier, accept the quantity only when
its `str()` is all digits and its integer value is positive. -/
def normalize_item (item : List (String × JValue)) : Option Requirement :=
  let pn := pyStrip (pyStr (dictGetD item "part_number" (JValue.jstr "")))
  let qty : Int :=
    if pyIsDigit (pyStr (dictGetD item "quantity" (JValue.jstr "0"))) then
      pyInt (dictGetD item "quantity" (JValue.jnum 0))
    else 0
  if pn ≠ "" ∧ 0 < qty then some ⟨pn, qty⟩ else none

/-- The parse step of the online extractor: direct `json.loads`, then the
brace span (a parse failure there raises into the outer `except`), then the
default `requirements: []` object when no span exists. -/
def requirements_parsed (content : String) : Option JValue :=
  match jsonParse content with
  | some v => some v
  | none =>
    match jsonSpan content with
    | some sub => jsonParse sub
    | none => some (JValue.jobj [("requirements", JValue.jarr [])])

/-- Online branch of `extract_requirements_from_forecast` applied to the
stripped backend text: any exception on the way (span parse failure,
`.get` on a non-dict, iteration hitting a non-dict element) lands in the
outer `except` and yields `[]`. -/
def extract_requirements_online (content : String) : List Requirement :=
  match requirements_parsed content with
  | none => []
  | some (JValue.jobj fields) =>
    match dictGetD fields "requirements" (JValue.jarr []) with
    | JValue.jarr items =>
      if items.all (fun it => match it with | JValue.jobj _ => true | _ => false) then
        items.filterMap (fun it => match it with | JValue.jobj f => normalize_item f | _ => none)
      else []
    | _ => []
  | some _ => []

/-- Loop of `ComponentSourcingAgent.source_requirements`, threading the
result dict and the component agent's state. -/
def source_requirements_aux (search : String → Option ComponentData) (client : Bool)
    (assess : String → GenOutcome) :
    List (String × SourcingEntry) → AgentState → List Requirement →
    List (String × SourcingEntry) × AgentState
  | acc, st, [] => (acc, st)
  | acc, st, req :: rest =>
    if req.part_number = "" ∨ req.quantity ≤ 0 then
      source_requirements_aux search client assess acc st rest
    else
      let r := source_component search client (assess req.part_number) st req.part_number req.quantity
      let risk := get_risk_report r.2 req.part_number
      source_requirements_aux search client assess
        (dictInsert acc req.part_number ⟨req.quantity, r.1, risk⟩) r.2 rest

/-- `ComponentSourcingAgent.source_requirements`: per-requirement oracle
`assess` gives the backend outcome of the risk-assessment call for a part
number. -/
def source_requirements (search : String → Option ComponentData) (client : Bool)
    (assess : String → GenOutcome) (st : AgentState) (reqs : List Requirement) :
    List (String × SourcingEntry) × AgentState :=
  source_requirements_aux search client assess [] st reqs

/-- A shared-context value: stage outputs are either text blobs or the
sourcing-result map. -/
inductive CtxVal where
  | text : String → CtxVal
  | sourcing : List (String × SourcingEntry) → CtxVal

/-- Non-emptiness of a shared-context value. -/
def ctxValNonEmpty : CtxVal → Bool
  | CtxVal.text s => !s.isEmpty
  | CtxVal.sourcing m => !m.isEmpty

/-- Keys of the sourcing-result entry of a shared context. -/
def ctxSourcingKeys (ctx : List (String × CtxVal)) : List String :=
  match dictGet? ctx "sourcing_results" with
  | some (CtxVal.sourcing m) => m.map Prod.fst
  | _ => []

/-- The dashboard pipeline (dashboard.py run-all / run-pipeline blocks) run
fully offline: no backend client anywhere, so every stage degrades.  The
writes into the threaded `shared_context` dict, in program order:
`demand_forecast` (line 253 / 806), `sourcing_results` (written inside
`source_requirements`, agent.py line 441, and re-written identically by the
run-all block), `production_plan` (line 298 / 871), `logistics_plan`
(line 326 / 900). -/
def runPipelineOffline : List (String × CtxVal) :=
  let forecast := generate_demand_forecast false false GenOutcome.failure
  let ctx1 := dictInsert ([] : List (String × CtxVal)) "demand_forecast" (CtxVal.text forecast)
  let reqs := extract_requirements_offline forecast
  let results := (source_requirements actualSearch false (fun _ => GenOutcome.failure)
    emptyAgentState reqs).1
  let ctx2 := dictInsert ctx1 "sourcing_results" (CtxVal.sourcing results)
  let plan := generate_production_plan false false GenOutcome.failure
  let ctx3 := dictInsert ctx2 "production_plan" (CtxVal.text plan)
  let logistics := generate_logistics_plan false false GenOutcome.failure
  dictInsert ctx3 "logistics_plan" (CtxVal.text logistics)

/-- Spec-side acceptance predicate on a quantity value, written from the
claim's words: a non-negative decimal-digit number, or a decimal-digit
string, that coerces to an integer strictly greater than zero. -/
def acceptsQuantitySpec : JValue → Prop
  | JValue.jnum n => 0 < n
  | JValue.jstr s => s ≠ "" ∧ s.data.all Char.isDigit = true ∧ 0 < digitsToNat s.data
  | _ => False

/-- The component record `source_component` builds for a part number from
looked-up data (risk score taken from the risk assessment). -/
def builtComponent (client : Bool) (resp : GenOutcome) (part_number : String)
    (data : ComponentData) : Component :=
  ⟨part_number, data.manufacturer, data.description, data.stock, data.price, data.lead_time,
   (assess_risks client resp part_number data).risk_score, data.alternatives⟩

/-- Per-entry invariant of a sourcing-result pair: positive requested
quantity, and component / risk report (when both present) carrying the
entry's own key as identifier. -/
def entryOk (ke : String × SourcingEntry) : Bool :=
  decide (0 < ke.2.requested_quantity) &&
    (match ke.2.component, ke.2.risk_report with
     | some c, some r => c.part_number == ke.1 && r.part_number == ke.1
     | _, _ => true)

/-- A lookup collaborator that fails for exactly one identifier (witness
fixture for the failure-isolation claim). -/
def wSearch : String → Option ComponentData :=
  fun pn => if pn == "LM358" then none else some (search_component pn)

/-- Three distinct valid requirements (witness fixture). -/
def wReqs : List Requirement := [⟨"LM741", 100⟩, ⟨"LM358", 80⟩, ⟨"OP07", 60⟩]

/- ### Helper lemmas on strings, digits and dictionaries -/

theorem data_append (s t : String) : (s ++ t).data = s.data ++ t.data := by
  cases s; cases t; rfl

theorem data_eq_nil_iff (s : String) : s.data = [] ↔ s = "" := by
  constructor
  · intro h; cases s; simp only at h; subst h; rfl
  · intro h; subst h; rfl

theorem pyIsDigit_false_of_mem (s : String) (c : Char) (hm : c ∈ s.data)
    (hc : c.isDigit = false) : pyIsDigit s = false := by
  unfold pyIsDigit
  rcases h : s.data.all Char.isDigit with _ | _
  · simp
  · have := (List.all_eq_true.mp h) c hm
    rw [hc] at this
    cases this

theorem digitChar_isDigit (n : Nat) (h : n < 10) : (Char.ofNat (48 + n)).isDigit = true := by
  interval_cases n <;> decide

theorem natRepr_all_digits (fuel n : Nat) : (natRepr fuel n).all Char.isDigit = true := by
  induction fuel generalizing n with
  | zero => rfl
  | succ f ih =>
    unfold natRepr
    by_cases h : n < 10
    · simp [h, digitChar_isDigit n h]
    · have h10 : n % 10 < 10 := Nat.mod_lt _ (by omega)
      simp [h, ih (n / 10), digitChar_isDigit _ h10]

theorem natRepr_ne_nil (fuel n : Nat) (h : 0 < fuel) : natRepr fuel n ≠ [] := by
  cases fuel with
  | zero => omega
  | succ f =>
    unfold natRepr
    by_cases hn : n < 10 <;> simp [hn]

theorem pyIsDigit_intStr (n : Int) : pyIsDigit (intStr n) = true ↔ 0 ≤ n := by
  constructor
  · intro h
    by_contra hneg
    have hlt : n < 0 := by omega
    unfold intStr at h
    rw [if_pos hlt] at h
    have hmem : '-' ∈ ("-" ++ String.mk (natRepr (n.natAbs + 1) n.natAbs)).data := by
      rw [data_append]; exact List.mem_append_left _ (by decide)
    have := pyIsDigit_false_of_mem _ '-' hmem (by decide)
    rw [this] at h; cases h
  · intro h
    unfold intStr
    rw [if_neg (by omega)]
    have hne : natRepr (n.toNat + 1) n.toNat ≠ [] := natRepr_ne_nil _ _ (by omega)
    have hall : (natRepr (n.toNat + 1) n.toNat).all Char.isDigit = true := natRepr_all_digits _ _
    show (!(natRepr (n.toNat + 1) n.toNat).isEmpty && (natRepr (n.toNat + 1) n.toNat).all Char.isDigit) = true
    rcases hl : natRepr (n.toNat + 1) n.toNat with _ | ⟨c, cs⟩
    · exact absurd hl hne
    · rw [hl] at hall; simp [hall]

theorem dictGet?_insert_self {α : Type} (d : List (String × α)) (k : String) (v : α) :
    dictGet? (dictInsert d k v) k = some v := by
  induction d with
  | nil => simp [dictInsert, dictGet?, List.find?]
  | cons hd t ih =>
    obtain ⟨k', v'⟩ := hd
    by_cases h : k' = k
    · subst h
      simp [dictInsert, dictGet?, List.find?]
    · simp only [dictInsert, if_neg h]
      simp only [dictGet?, List.find?] at ih ⊢
      have hne : (k' == k) = false := by simpa using h
      rw [hne]
      exact ih

theorem dictGet?_insert_other {α : Type} (d : List (String × α)) (k k₂ : String) (v : α)
    (h : k₂ ≠ k) : dictGet? (dictInsert d k v) k₂ = dictGet? d k₂ := by
  induction d with
  | nil =>
    have : (k == k₂) = false := by simpa using fun e => h e.symm
    simp [dictInsert, dictGet?, List.find?, this]
  | cons hd t ih =>
    obtain ⟨k', v'⟩ := hd
    by_cases hk : k' = k
    · subst hk
      simp only [dictInsert, if_pos rfl]
      simp only [dictGet?, List.find?]
      have h1 : (k' == k₂) = false := by simpa using fun e => h e.symm
      rw [h1]
    · simp only [dictInsert, if_neg hk]
      simp only [dictGet?, List.find?] at ih ⊢
      by_cases h2 : k' = k₂
      · subst h2; simp
      · have h2' : (k' == k₂) = false := by simpa using h2
        rw [h2']
        exact ih

theorem mem_keys_insert {α : Type} (d : List (String × α)) (k x : String) (v : α) :
    x ∈ (dictInsert d k v).map Prod.fst ↔ x ∈ d.map Prod.fst ∨ x = k := by
  induction d with
  | nil => simp [dictInsert]
  | cons hd t ih =>
    obtain ⟨k', v'⟩ := hd
    by_cases h : k' = k
    · subst h
      simp [dictInsert]
      tauto
    · simp only [dictInsert, if_neg h, List.map_cons, List.mem_cons, ih]
      tauto

theorem keys_nodup_insert {α : Type} (d : List (String × α)) (k : String) (v : α)
    (h : (d.map Prod.fst).Nodup) : ((dictInsert d k v).map Prod.fst).Nodup := by
  induction d with
  | nil => simp [dictInsert]
  | cons hd t ih =>
    obtain ⟨k', v'⟩ := hd
    simp only [List.map_cons, List.nodup_cons] at h
    by_cases hk : k' = k
    · subst hk
      simpa [dictInsert] using h
    · simp only [dictInsert, if_neg hk, List.map_cons, List.nodup_cons]
      refine ⟨?_, ih h.2⟩
      rw [mem_keys_insert]
      rintro (hm | hm)
      · exact h.1 hm
      · exact hk hm

theorem mem_keys_of_dictGet? {α : Type} (d : List (String × α)) (k : String) (v : α)
    (h : dictGet? d k = some v) : k ∈ d.map Prod.fst := by
  unfold dictGet? at h
  rcases hf : d.find? (fun p => p.1 == k) with _ | p
  · rw [hf] at h; cases h
  · have hp := List.find?_some hf
    have hmem := List.mem_of_find?_eq_some hf
    have : p.1 = k := by simpa using hp
    subst this
    exact List.mem_map.mpr ⟨p, hmem, rfl⟩

theorem filter_key_eq_nil {α : Type} (d : List (String × α)) (p : String)
    (h : p ∉ d.map Prod.fst) : d.filter (fun ke => ke.1 == p) = [] := by
  induction d with
  | nil => rfl
  | cons hd t ih =>
    simp only [List.map_cons, List.mem_cons, not_or] at h
    have h1 : (hd.1 == p) = false := by simpa using fun e => h.1 e.symm
    simp [List.filter, h1, ih h.2]

theorem filter_key_length_one {α : Type} (d : List (String × α)) (p : String)
    (hnd : (d.map Prod.fst).Nodup) (hm : p ∈ d.map Prod.fst) :
    (d.filter (fun ke => ke.1 == p)).length = 1 := by
  induction d with
  | nil => cases hm
  | cons hd t ih =>
    simp only [List.map_cons, List.nodup_cons] at hnd
    simp only [List.map_cons, List.mem_cons] at hm
    by_cases h : hd.1 = p
    · have hb : (hd.1 == p) = true := by simpa using h
      have hnot : p ∉ t.map Prod.fst := h ▸ hnd.1
      simp [List.filter, hb, filter_key_eq_nil t p hnot]
    · have hb : (hd.1 == p) = false := by simpa using h
      rcases hm with hm | hm
      · exact absurd hm.symm h
      · simp [List.filter, hb, ih hnd.2 hm]

/- ### Lemmas about the sourcing aggregation loop -/

theorem source_component_fst (search : String → Option ComponentData) (client : Bool)
    (resp : GenOutcome) (st : AgentState) (p : String) (q : Int) :
    (source_component search client resp st p q).1 = (search p).map (builtComponent client resp p) := by
  unfold source_component builtComponent
  cases search p <;> rfl

theorem aux_stable (search : String → Option ComponentData) (client : Bool)
    (assess : String → GenOutcome) (p : String) :
    ∀ (reqs : List Requirement) (acc : List (String × SourcingEntry)) (st : AgentState),
      p ∉ reqs.map Requirement.part_number →
      dictGet? (source_requirements_aux search client assess acc st reqs).1 p = dictGet? acc p := by
  intro reqs
  induction reqs with
  | nil => intro acc st _; rfl
  | cons r rest ih =>
    intro acc st h
    simp only [List.map_cons, List.mem_cons, not_or] at h
    unfold source_requirements_aux
    by_cases hskip : r.part_number = "" ∨ r.quantity ≤ 0
    · rw [if_pos hskip]
      exact ih acc st h.2
    · rw [if_neg hskip]
      rw [ih _ _ h.2]
      exact dictGet?_insert_other _ _ _ _ h.1

theorem aux_keys_nodup (search : String → Option ComponentData) (client : Bool)
    (assess : String → GenOutcome) :
    ∀ (reqs : List Requirement) (acc : List (String × SourcingEntry)) (st : AgentState),
      (acc.map Prod.fst).Nodup →
      (((source_requirements_aux search client assess acc st reqs).1).map Prod.fst).Nodup := by
  intro reqs
  induction reqs with
  | nil => intro acc st h; exact h
  | cons r rest ih =>
    intro acc st h
    unfold source_requirements_aux
    by_cases hskip : r.part_number = "" ∨ r.quantity ≤ 0
    · rw [if_pos hskip]; exact ih acc st h
    · rw [if_neg hskip]
      exact ih _ _ (keys_nodup_insert _ _ _ h)

theorem aux_get_qty (search : String → Option ComponentData) (client : Bool)
    (assess : String → GenOutcome) (p : String) (hp : p ≠ "") :
    ∀ (reqs : List Requirement) (acc : List (String × SourcingEntry)) (st : AgentState),
      (∀ r ∈ reqs, r.part_number = p → 0 < r.quantity) →
      (dictGet? (source_requirements_aux search client assess acc st reqs).1 p).map
          SourcingEntry.requested_quantity
        = Option.or (((reqs.filter (fun r => r.part_number == p)).getLast?).map Requirement.quantity)
            ((dictGet? acc p).map SourcingEntry.requested_quantity) := by
  intro reqs
  induction reqs with
  | nil =>
    intro acc st _
    simp [source_requirements_aux, List.filter, Option.none_or]
  | cons r rest ih =>
    intro acc st hvalid
    have hvr := hvalid r (List.mem_cons_self r rest)
    have hvrest : ∀ x ∈ rest, x.part_number = p → 0 < x.quantity :=
      fun x hx => hvalid x (List.mem_cons_of_mem r hx)
    unfold source_requirements_aux
    by_cases hskip : r.part_number = "" ∨ r.quantity ≤ 0
    · have hne : r.part_number ≠ p := by
        rcases hskip with h | h
        · intro e; exact hp (e ▸ h)
        · intro e; have := hvr e; omega
      rw [if_pos hskip]
      have hb : (r.part_number == p) = false := by simpa using hne
      rw [List.filter_cons, if_neg (by simp [hb])]
      exact ih acc st hvrest
    · rw [if_neg hskip]
      by_cases heq : r.part_number = p
      · have hb : (r.part_number == p) = true := by simpa using heq
        rw [List.filter_cons, if_pos (by simp [hb])]
        rw [ih _ _ hvrest]
        rw [heq, dictGet?_insert_self]
        rcases hf : rest.filter (fun x => x.part_number == p) with _ | ⟨x, xs⟩
        · rw [hf]
          simp only [List.getLast?_nil, List.getLast?_singleton, Option.map_none',
            Option.map_some', Option.none_or]
          rfl
        · rw [hf, List.getLast?_cons_cons]
          rcases hgl : (x :: xs).getLast? with _ | l
          · exact absurd (List.getLast?_eq_none_iff.mp hgl) (by simp)
          · rfl
      · have hb : (r.part_number == p) = false := by simpa using heq
        rw [List.filter_cons, if_neg (by simp [hb])]
        rw [ih _ _ hvrest]
        rw [dictGet?_insert_other _ _ _ _ (fun e => heq e.symm)]

theorem aux_entry_isolated (search : String → Option ComponentData) (client : Bool)
    (assess : String → GenOutcome) :
    ∀ (reqs : List Requirement) (acc : List (String × SourcingEntry)) (st : AgentState),
      (∀ r ∈ reqs, r.part_number ≠ "" ∧ 0 < r.quantity) →
      (reqs.map Requirement.part_number).Nodup →
      ∀ r ∈ reqs, ∃ e : SourcingEntry,
        dictGet? (source_requirements_aux search client assess acc st reqs).1 r.part_number = some e
        ∧ e.requested_quantity = r.quantity
        ∧ e.component = (search r.part_number).map (builtComponent client (assess r.part_number) r.part_number) := by
  intro reqs
  induction reqs with
  | nil => intro _ _ _ _ r hr; cases hr
  | cons r0 rest ih =>
    intro acc st hvalid hnd r hr
    have hv0 := hvalid r0 (List.mem_cons_self r0 rest)
    have hskip : ¬(r0.part_number = "" ∨ r0.quantity ≤ 0) := by
      rintro (h | h)
      · exact hv0.1 h
      · have := hv0.2; omega
    simp only [List.map_cons, List.nodup_cons] at hnd
    unfold source_requirements_aux
    rw [if_neg hskip]
    rcases List.mem_cons.mp hr with hreq | hr
    · subst hreq
      refine ⟨⟨r.quantity,
               (source_component search client (assess r.part_number) st r.part_number r.quantity).1,
               get_risk_report (source_component search client (assess r.part_number) st r.part_number r.quantity).2 r.part_number⟩,
             ?_, rfl, ?_⟩
      · rw [aux_stable search client assess r.part_number rest _ _ hnd.1]
        exact dictGet?_insert_self _ _ _
      · exact source_component_fst search client (assess r.part_number) st r.part_number r.quantity
    · exact ih _ _ (fun x hx => hvalid x (List.mem_cons_of_mem r0 hx)) hnd.2 r hr

theorem aux_all_ok (search : String → Option ComponentData) (client : Bool)
    (assess : String → GenOutcome) :
    ∀ (reqs : List Requirement) (acc : List (String × SourcingEntry)) (st : AgentState),
      acc.all entryOk = true →
      ((source_requirements_aux search client assess acc st reqs).1).all entryOk = true := by
  intro reqs
  induction reqs with
  | nil => intro acc st h; exact h
  | cons r rest ih =>
    intro acc st h
    unfold source_requirements_aux
    by_cases hskip : r.part_number = "" ∨ r.quantity ≤ 0
    · rw [if_pos hskip]; exact ih acc st h
    · rw [if_neg hskip]
      refine ih _ _ ?_
      have hq : 0 < r.quantity := by omega
      have hentry : entryOk (r.part_number,
          ⟨r.quantity,
           (source_component search client (assess r.part_number) st r.part_number r.quantity).1,
           get_risk_report (source_component search client (assess r.part_number) st r.part_number r.quantity).2 r.part_number⟩) = true := by
        unfold entryOk
        refine Bool.and_eq_true_iff.mpr ⟨by simpa using hq, ?_⟩
        rw [source_component_fst]
        rcases hs : search r.part_number with _ | d
        · simp
        · rcases hrr : get_risk_report (source_component search client (assess r.part_number) st r.part_number r.quantity).2 r.part_number with _ | rep
          · simp
          · have hrep : rep.part_number = r.part_number := by
              unfold get_risk_report at hrr
              rcases hga : dictGet? (source_component search client (assess r.part_number) st r.part_number r.quantity).2.risk_assessments r.part_number with _ | a
              · rw [hga] at hrr; cases hrr
              · rw [hga] at hrr
                simp only [Option.some.injEq] at hrr
                rw [← hrr]
            simp [builtComponent, hrep]
      -- insertion preserves the all-entries invariant
      clear ih
      induction acc with
      | nil => simpa [dictInsert] using hentry
      | cons hd t iha =>
        simp only [List.all_cons, Bool.and_eq_true] at h
        by_cases hk : hd.1 = r.part_number
        · simp only [dictInsert]
          rw [if_pos hk]
          simp only [List.all_cons, Bool.and_eq_true]
          exact ⟨hentry, h.2⟩
        · simp only [dictInsert]
          rw [if_neg hk]
          simp only [List.all_cons, Bool.and_eq_true]
          exact ⟨h.1, iha h.2⟩

/- ### Lemmas about the brace-span search -/

theorem lastIdx_sound (p : Char → Bool) :
    ∀ (l : List Char) (j : Nat), lastIdx p l = some j → ∃ c, l.get? j = some c ∧ p c = true := by
  intro l
  induction l with
  | nil => intro j h; cases h
  | cons c0 cs ih =>
    intro j h
    unfold lastIdx at h
    rcases h' : lastIdx p cs with _ | j'
    · rw [h'] at h
      by_cases hp : p c0
      · rw [if_pos hp] at h
        cases h
        exact ⟨c0, rfl, hp⟩
      · rw [if_neg hp] at h; cases h
    · rw [h'] at h
      cases h
      obtain ⟨c, hc, hpc⟩ := ih j' h'
      exact ⟨c, hc, hpc⟩

theorem lastIdx_complete (p : Char → Bool) :
    ∀ (l : List Char) (j : Nat) (c : Char), l.get? j = some c → p c = true →
      (∀ (k : Nat) (d : Char), j < k → l.get? k = some d → p d = false) →
      lastIdx p l = some j := by
  intro l
  induction l with
  | nil => intro j c h; cases h
  | cons c0 cs ih =>
    intro j c hget hp hmax
    cases j with
    | zero =>
      have hc : c = c0 := by cases hget; rfl
      subst hc
      have hnone : lastIdx p cs = none := by
        rcases h2 : lastIdx p cs with _ | j2
        · rfl
        · obtain ⟨d, hd, hpd⟩ := lastIdx_sound p cs j2 h2
          have := hmax (j2 + 1) d (Nat.succ_pos _) hd
          rw [hpd] at this
          cases this
      unfold lastIdx
      rw [hnone, if_pos hp]
    | succ j' =>
      have hrec : lastIdx p cs = some j' :=
        ih j' c hget hp (fun k d hk hg => hmax (k + 1) d (by omega) hg)
      unfold lastIdx
      rw [hrec]

theorem firstIdx_complete (p : Char → Bool) :
    ∀ (l : List Char) (i : Nat) (c : Char), l.get? i = some c → p c = true →
      (∀ (k : Nat) (d : Char), k < i → l.get? k = some d → p d = false) →
      firstIdx p l = some i := by
  intro l
  induction l with
  | nil => intro i c h; cases h
  | cons c0 cs ih =>
    intro i c hget hp hbefore
    cases i with
    | zero =>
      have hc : c = c0 := by cases hget; rfl
      subst hc
      unfold firstIdx
      rw [if_pos hp]
    | succ i' =>
      have h0 : p c0 = false := hbefore 0 c0 (Nat.succ_pos _) rfl
      have hrec : firstIdx p cs = some i' :=
        ih i' c hget hp (fun k d hk hg => hbefore (k + 1) d (by omega) hg)
      unfold firstIdx
      rw [if_neg (by simp [h0]), hrec]
      rfl

theorem jsonSpan_first_last (s : String) (i j : Nat)
    (hi : s.data.get? i = some lbrace)
    (hfirst : ∀ (k : Nat) (d : Char), k < i → s.data.get? k = some d → d ≠ lbrace)
    (hj : s.data.get? j = some rbrace)
    (hlast : ∀ (k : Nat) (d : Char), j < k → s.data.get? k = some d → d ≠ rbrace)
    (hij : i < j) :
    jsonSpan s = some (String.mk ((s.data.drop i).take (j - i + 1))) := by
  have h1 : firstIdx (fun c => c == lbrace) s.data = some i := by
    refine firstIdx_complete _ _ _ lbrace hi (by simp) ?_
    intro k d hk hg
    simpa using hfirst k d hk hg
  have h2 : lastIdx (fun c => c == rbrace) s.data = some j := by
    refine lastIdx_complete _ _ _ rbrace hj (by simp) ?_
    intro k d hk hg
    simpa using hlast k d hk hg
  unfold jsonSpan
  simp only [h1, h2]
  rw [if_pos hij]

/- ### Lemmas about quantity acceptance in the extractor -/

theorem dot_mem_pyFloatRepr (q : ℚ) : '.' ∈ (pyFloatRepr q).data := by
  unfold pyFloatRepr
  simp [data_append, List.mem_append]

theorem qty_accepts (item : List (String × JValue)) :
    (0 < (if pyIsDigit (pyStr (dictGetD item "quantity" (JValue.jstr "0"))) then
            pyInt (dictGetD item "quantity" (JValue.jnum 0)) else 0))
    ↔ acceptsQuantitySpec (dictGetD item "quantity" (JValue.jstr "0")) := by
  rcases hq : dictGet? item "quantity" with _ | v
  · simp only [dictGetD, hq, Option.getD_none]
    have e1 : (if pyIsDigit (pyStr (JValue.jstr "0")) then pyInt (JValue.jnum 0) else 0) = 0 := by
      decide
    rw [e1]
    refine iff_of_false (by omega) ?_
    rintro ⟨h1, h2, h3⟩
    revert h3
    decide
  · simp only [dictGetD, hq, Option.getD_some]
    cases v with
    | jnum n =>
      by_cases hn : 0 ≤ n
      · have hd : pyIsDigit (pyStr (JValue.jnum n)) = true := by
          show pyIsDigit (intStr n) = true
          exact (pyIsDigit_intStr n).mpr hn
        rw [if_pos hd]
        exact Iff.rfl
      · have hd : pyIsDigit (pyStr (JValue.jnum n)) = false := by
          show pyIsDigit (intStr n) = false
          rcases h : pyIsDigit (intStr n) with _ | _
          · rfl
          · exact absurd ((pyIsDigit_intStr n).mp h) hn
        rw [if_neg (by simp [hd])]
        exact iff_of_false (by omega) (by show ¬(0 < n); omega)
    | jstr s =>
      show (0 < if pyIsDigit s then Int.ofNat (digitsToNat s.data) else 0) ↔
        (s ≠ "" ∧ s.data.all Char.isDigit = true ∧ 0 < digitsToNat s.data)
      by_cases h1 : pyIsDigit s = true
      · rw [if_pos h1]
        have hne : s.data.isEmpty = false ∧ s.data.all Char.isDigit = true := by
          unfold pyIsDigit at h1
          rcases he : s.data.isEmpty with _ | _ <;> rcases ha : s.data.all Char.isDigit with _ | _ <;>
            simp [he, ha] at h1 ⊢
        constructor
        · intro h
          refine ⟨?_, hne.2, Int.ofNat_pos.mp h⟩
          intro hnil
          rw [← data_eq_nil_iff] at hnil
          rw [hnil] at hne
          cases hne.1
        · rintro ⟨_, _, h3⟩
          exact Int.ofNat_pos.mpr h3
      · rw [if_neg h1]
        refine iff_of_false (by omega) ?_
        rintro ⟨hs1, hs2, _⟩
        refine h1 ?_
        unfold pyIsDigit
        have : s.data ≠ [] := fun h => hs1 ((data_eq_nil_iff s).mp h)
        rcases he : s.data with _ | ⟨c, cs⟩
        · exact absurd he this
        · rw [he] at hs2
          simp [hs2]
    | jbool b => cases b <;> exact iff_of_false (by decide) (fun h => h)
    | jnull => exact iff_of_false (by decide) (fun h => h)
    | jfloat q =>
      have hd : pyIsDigit (pyStr (JValue.jfloat q)) = false :=
        pyIsDigit_false_of_mem _ '.' (dot_mem_pyFloatRepr q) (by decide)
      rw [if_neg (by simp [hd])]
      exact iff_of_false (by omega) (fun h => h)
    | jarr xs =>
      have hmem : '[' ∈ (pyStr (JValue.jarr xs)).data := by
        show '[' ∈ (pyRepr (JValue.jarr xs)).data
        simp [pyRepr, data_append, List.mem_append]
      have hd : pyIsDigit (pyStr (JValue.jarr xs)) = false :=
        pyIsDigit_false_of_mem _ '[' hmem (by decide)
      rw [if_neg (by simp [hd])]
      exact iff_of_false (by omega) (fun h => h)
    | jobj fs =>
      have hmem : lbrace ∈ (pyStr (JValue.jobj fs)).data := by
        show lbrace ∈ (pyRepr (JValue.jobj fs)).data
        simp [pyRepr, data_append, List.mem_append]
        left
        decide
      have hd : pyIsDigit (pyStr (JValue.jobj fs)) = false :=
        pyIsDigit_false_of_mem _ lbrace hmem (by decide)
      rw [if_neg (by simp [hd])]
      exact iff_of_false (by omega) (fun h => h)

theorem normalize_item_eq (item : List (String × JValue)) :
    normalize_item item =
      (if (pyStrip (pyStr (dictGetD item "part_number" (JValue.jstr ""))) ≠ ""
           ∧ 0 < (if pyIsDigit (pyStr (dictGetD item "quantity" (JValue.jstr "0"))) then
                    pyInt (dictGetD item "quantity" (JValue.jnum 0)) else 0)) then
         some ⟨pyStrip (pyStr (dictGetD item "part_number" (JValue.jstr ""))),
               (if pyIsDigit (pyStr (dictGetD item "quantity" (JValue.jstr "0"))) then
                  pyInt (dictGetD item "quantity" (JValue.jnum 0)) else 0)⟩
       else none) := rfl

theorem normalize_item_isSome (item : List (String × JValue)) :
    (normalize_item item).isSome = true ↔
      (pyStrip (pyStr (dictGetD item "part_number" (JValue.jstr ""))) ≠ ""
       ∧ acceptsQuantitySpec (dictGetD item "quantity" (JValue.jstr "0"))) := by
  have hqa := qty_accepts item
  rw [normalize_item_eq]
  by_cases hc : (pyStrip (pyStr (dictGetD item "part_number" (JValue.jstr ""))) ≠ ""
      ∧ 0 < (if pyIsDigit (pyStr (dictGetD item "quantity" (JValue.jstr "0"))) then
               pyInt (dictGetD item "quantity" (JValue.jnum 0)) else 0))
  · rw [if_pos hc]
    simp only [Option.isSome_some]
    exact iff_of_true trivial ⟨hc.1, hqa.mp hc.2⟩
  · rw [if_neg hc]
    simp only [Option.isSome_none]
    exact iff_of_false (by simp) (fun hr => hc ⟨hr.1, hqa.mpr hr.2⟩)

theorem normalize_item_some (item : List (String × JValue)) (r : Requirement)
    (h : normalize_item item = some r) : r.part_number ≠ "" ∧ 0 < r.quantity := by
  rw [normalize_item_eq] at h
  by_cases hc : (pyStrip (pyStr (dictGetD item "part_number" (JValue.jstr ""))) ≠ ""
      ∧ 0 < (if pyIsDigit (pyStr (dictGetD item "quantity" (JValue.jstr "0"))) then
               pyInt (dictGetD item "quantity" (JValue.jnum 0)) else 0))
  · rw [if_pos hc] at h
    cases h
    exact ⟨hc.1, hc.2⟩
  · rw [if_neg hc] at h
    cases h

theorem extract_online_valid (content : String) (r : Requirement)
    (h : r ∈ extract_requirements_online content) : r.part_number ≠ "" ∧ 0 < r.quantity := by
  unfold extract_requirements_online at h
  split at h
  · cases h
  · split at h
    · split at h
      · obtain ⟨it, hmem, hit⟩ := List.mem_filterMap.mp h
        split at hit
        · exact normalize_item_some _ r hit
        · cases hit
      · cases h
    · cases h
  · cases h

theorem dictInsert_all {α : Type} (P : (String × α) → Bool) (d : List (String × α))
    (k : String) (v : α) (hd : d.all P = true) (hv : P (k, v) = true) :
    (dictInsert d k v).all P = true := by
  induction d with
  | nil => simpa [dictInsert] using hv
  | cons hd0 t ih =>
    simp only [List.all_cons, Bool.and_eq_true] at hd
    by_cases hk : hd0.1 = k
    · simp only [dictInsert]
      rw [if_pos hk]
      simp only [List.all_cons, Bool.and_eq_true]
      exact ⟨hv, hd.2⟩
    · simp only [dictInsert]
      rw [if_neg hk]
      simp only [List.all_cons, Bool.and_eq_true]
      exact ⟨hd.1, ih hd.2⟩

theorem aux_all_component (client : Bool) (assess : String → GenOutcome) :
    ∀ (reqs : List Requirement) (acc : List (String × SourcingEntry)) (st : AgentState),
      acc.all (fun ke => ke.2.component.isSome) = true →
      ((source_requirements_aux actualSearch client assess acc st reqs).1).all
        (fun ke => ke.2.component.isSome) = true := by
  intro reqs
  induction reqs with
  | nil => intro acc st h; exact h
  | cons r rest ih =>
    intro acc st h
    unfold source_requirements_aux
    by_cases hskip : r.part_number = "" ∨ r.quantity ≤ 0
    · rw [if_pos hskip]; exact ih acc st h
    · rw [if_neg hskip]
      refine ih _ _ (dictInsert_all _ _ _ _ h ?_)
      show ((source_component actualSearch client (assess r.part_number) st r.part_number r.quantity).1).isSome = true
      rw [source_component_fst]
      rfl

set_option maxRecDepth 40000

/- ### Claim theorems -/

/-- C1: for each stage agent (Forecast, Scheduler, Logistics), whenever the
generation client is absent, the offline flag is set in the shared context,
or the backend call raises, the stage returns exactly its fixed offline
constant string; the embedding is a total function, so no exception
reaches the caller on these paths. -/
theorem c1_stage_offline_constant (client offlineFlag : Bool) (resp : GenOutcome)
    (h : client = false ∨ offlineFlag = true ∨ resp = GenOutcome.failure) :
    generate_demand_forecast client offlineFlag resp = offline_forecast
    ∧ generate_production_plan client offlineFlag resp = offline_plan
    ∧ generate_logistics_plan client offlineFlag resp = offline_logistics := by
  unfold generate_demand_forecast generate_production_plan generate_logistics_plan
  rcases h with h | h | h
  · subst h; simp
  · subst h; simp
  · subst h; cases client <;> cases offlineFlag <;> simp

/-- Witness for C1 at the concrete no-client instance. -/
theorem c1_witness :
    (false = false ∨ false = true ∨ GenOutcome.failure = GenOutcome.failure)
    ∧ (generate_demand_forecast false false GenOutcome.failure = offline_forecast
       ∧ generate_production_plan false false GenOutcome.failure = offline_plan
       ∧ generate_logistics_plan false false GenOutcome.failure = offline_logistics) :=
  ⟨Or.inl rfl, c1_stage_offline_constant false false GenOutcome.failure (Or.inl rfl)⟩

/-- C2 counterexample: the offline pipeline's shared context does not hold
the key "production_schedule" (the pipeline writes the production stage
output under "production_plan"), so the claimed key set is wrong. -/
theorem c2_counterexample :
    "production_schedule" ∉ runPipelineOffline.map Prod.fst
    ∧ runPipelineOffline.map Prod.fst
        ≠ ["demand_forecast", "sourcing_results", "production_schedule", "logistics_plan"] := by
  refine ⟨by decide, by decide⟩

/-- C2 (amended): running the full pipeline with no backend yields a shared
context whose key set is exactly demand_forecast, sourcing_results,
production_plan, logistics_plan, each mapped to a non-empty value, with the
sourcing results keyed exactly by the identifiers the offline heuristic
extracts from the fixed offline forecast string (LM741, LM358, OP07). -/
theorem c2_offline_context :
    runPipelineOffline.map Prod.fst
      = ["demand_forecast", "sourcing_results", "production_plan", "logistics_plan"]
    ∧ runPipelineOffline.all (fun kv => ctxValNonEmpty kv.2) = true
    ∧ ctxSourcingKeys runPipelineOffline
        = (extract_requirements_offline offline_forecast).map Requirement.part_number
    ∧ (extract_requirements_offline offline_forecast).map Requirement.part_number
        = ["LM741", "LM358", "OP07"] := by
  refine ⟨by decide, by decide, by decide, by decide⟩

/-- C3: online-mode normalization keeps a parsed requirement element
exactly when its stringified, stripped identifier is non-empty and its
quantity is a decimal-digit number or string with positive integer value;
failing elements are silently dropped (a well-formed response whose only
entry has quantity 0 yields the empty list), and every emitted record has a
non-empty identifier and positive quantity. -/
theorem c3_online_normalization :
    (∀ item : List (String × JValue),
       (normalize_item item).isSome = true ↔
         (pyStrip (pyStr (dictGetD item "part_number" (JValue.jstr ""))) ≠ ""
          ∧ acceptsQuantitySpec (dictGetD item "quantity" (JValue.jstr "0"))))
    ∧ (∀ (content : String) (r : Requirement),
         r ∈ extract_requirements_online content → r.part_number ≠ "" ∧ 0 < r.quantity)
    ∧ extract_requirements_online
        "\x7b\"requirements\": [\x7b\"part_number\": \"X\", \"quantity\": 0\x7d]\x7d" = [] :=
  ⟨normalize_item_isSome, extract_online_valid, by decide⟩

/-- Witness for C3: a concrete well-formed element is kept with non-empty
identifier and positive quantity. -/
theorem c3_witness :
    Requirement.mk "LM741" 100 ∈ extract_requirements_online
        "\x7b\"requirements\": [\x7b\"part_number\": \"LM741\", \"quantity\": 100\x7d]\x7d"
    ∧ ((Requirement.mk "LM741" 100).part_number ≠ "" ∧ 0 < (Requirement.mk "LM741" 100).quantity) :=
  ⟨by decide,
   c3_online_normalization.2.1
     "\x7b\"requirements\": [\x7b\"part_number\": \"LM741\", \"quantity\": 100\x7d]\x7d"
     (Requirement.mk "LM741" 100) (by decide)⟩

/-- C4 counterexample: on a text in which "LM358" occurs before "LM741",
the offline extractor still returns the records in the fixed vocabulary
order LM741, LM358 — not in the order the identifiers are first
encountered in the text, contradicting the claim as stated. -/
theorem c4_counterexample :
    extract_requirements_offline "LM358 and LM741" = [⟨"LM741", 100⟩, ⟨"LM358", 80⟩]
    ∧ extract_requirements_offline "LM358 and LM741" ≠ [⟨"LM358", 80⟩, ⟨"LM741", 100⟩]
    ∧ substrIdx "LM358 and LM741" "LM358" = some 0
    ∧ substrIdx "LM358 and LM741" "LM741" = some 10 := by
  refine ⟨by decide, by decide, by decide, by decide⟩

/-- C4 (amended): for any forecast text containing "LM741" and "LM358" but
not "OP07", the offline extractor returns exactly the two records
(LM741, 100) and (LM358, 80), in the fixed vocabulary scan order
(LM741 before LM358), regardless of their order in the text. -/
theorem c4_offline_two_tokens (t : String)
    (h1 : strContains t "LM741" = true) (h2 : strContains t "LM358" = true)
    (h3 : strContains t "OP07" = false) :
    extract_requirements_offline t = [⟨"LM741", 100⟩, ⟨"LM358", 80⟩] := by
  unfold extract_requirements_offline
  simp [h1, h2, h3]

/-- Witness for C4's amended theorem at a concrete text. -/
theorem c4_witness :
    (strContains "LM741 LM358" "LM741" = true ∧ strContains "LM741 LM358" "LM358" = true
     ∧ strContains "LM741 LM358" "OP07" = false)
    ∧ extract_requirements_offline "LM741 LM358" = [⟨"LM741", 100⟩, ⟨"LM358", 80⟩] :=
  ⟨⟨by decide, by decide, by decide⟩,
   c4_offline_two_tokens "LM741 LM358" (by decide) (by decide) (by decide)⟩

/-- C5: when a requirements list (well-formed per the data model: every
occurrence of the identifier has positive quantity) contains two or more
entries for the same identifier, the sourcing result holds exactly one
entry for it, whose requested quantity is the quantity of the last such
entry in input order. -/
theorem c5_duplicate_last_wins (search : String → Option ComponentData) (client : Bool)
    (assess : String → GenOutcome) (st : AgentState) (reqs : List Requirement) (p : String)
    (hp : p ≠ "")
    (hvalid : ∀ r ∈ reqs, r.part_number = p → 0 < r.quantity)
    (hdup : 2 ≤ (reqs.filter (fun r => r.part_number == p)).length) :
    ((source_requirements search client assess st reqs).1.filter (fun ke => ke.1 == p)).length = 1
    ∧ (dictGet? (source_requirements search client assess st reqs).1 p).map
          SourcingEntry.requested_quantity
        = ((reqs.filter (fun r => r.part_number == p)).getLast?).map Requirement.quantity := by
  have hq := aux_get_qty search client assess p hp reqs [] st hvalid
  have hbase : (dictGet? ([] : List (String × SourcingEntry)) p).map
      SourcingEntry.requested_quantity = none := rfl
  rw [hbase, Option.or_none] at hq
  unfold source_requirements
  constructor
  · have hnodup := aux_keys_nodup search client assess reqs [] st (by simp)
    rcases hf : reqs.filter (fun r => r.part_number == p) with _ | ⟨x, xs⟩
    · rw [hf] at hdup; simp at hdup
    · have hgl : ∃ l, (x :: xs).getLast? = some l := by
        rcases hg : (x :: xs).getLast? with _ | l
        · exact absurd (List.getLast?_eq_none_iff.mp hg) (by simp)
        · exact ⟨l, rfl⟩
      obtain ⟨l, hl⟩ := hgl
      rw [hf, hl] at hq
      rcases hget : dictGet? (source_requirements_aux search client assess [] st reqs).1 p
        with _ | e
      · rw [hget] at hq; cases hq
      · have hmem := mem_keys_of_dictGet? _ _ _ hget
        exact filter_key_length_one _ p hnodup hmem
  · exact hq

/-- Witness for C5 on a concrete duplicate pair (quantities 5 then 7). -/
theorem c5_witness :
    (2 ≤ (([⟨"LM741", 5⟩, ⟨"LM741", 7⟩] : List Requirement).filter
        (fun r => r.part_number == "LM741")).length)
    ∧ (((source_requirements actualSearch false (fun _ => GenOutcome.failure) emptyAgentState
          [⟨"LM741", 5⟩, ⟨"LM741", 7⟩]).1.filter (fun ke => ke.1 == "LM741")).length = 1
       ∧ (dictGet? (source_requirements actualSearch false (fun _ => GenOutcome.failure)
             emptyAgentState [⟨"LM741", 5⟩, ⟨"LM741", 7⟩]).1 "LM741").map
             SourcingEntry.requested_quantity
           = ((([⟨"LM741", 5⟩, ⟨"LM741", 7⟩] : List Requirement).filter
               (fun r => r.part_number == "LM741")).getLast?).map Requirement.quantity) :=
  ⟨by decide,
   c5_duplicate_last_wins actualSearch false (fun _ => GenOutcome.failure) emptyAgentState
     [⟨"LM741", 5⟩, ⟨"LM741", 7⟩] "LM741" (by decide) (by decide) (by decide)⟩

/-- C6: a lookup failure for one identifier does not abort the others: for
any collaborator `search` and any well-formed, duplicate-free requirements
list, every requirement gets an entry keyed by its identifier, with its
requested quantity retained and its component exactly the lookup outcome —
present and populated when lookup succeeds, explicitly absent when lookup
fails. -/
theorem c6_failure_isolation (search : String → Option ComponentData) (client : Bool)
    (assess : String → GenOutcome) (st : AgentState) (reqs : List Requirement)
    (hvalid : ∀ r ∈ reqs, r.part_number ≠ "" ∧ 0 < r.quantity)
    (hnodup : (reqs.map Requirement.part_number).Nodup) :
    ∀ r ∈ reqs, ∃ e : SourcingEntry,
      dictGet? (source_requirements search client assess st reqs).1 r.part_number = some e
      ∧ e.requested_quantity = r.quantity
      ∧ e.component = (search r.part_number).map
          (builtComponent client (assess r.part_number) r.part_number) :=
  fun r hr => aux_entry_isolated search client assess reqs [] st hvalid hnodup r hr

/-- Witness for C6: three valid requirements, lookup failing exactly for
LM358; the LM358 entry exists with quantity retained and component absent. -/
theorem c6_witness :
    ((∀ r ∈ wReqs, r.part_number ≠ "" ∧ 0 < r.quantity)
     ∧ (wReqs.map Requirement.part_number).Nodup
     ∧ Requirement.mk "LM358" 80 ∈ wReqs)
    ∧ (∃ e : SourcingEntry,
        dictGet? (source_requirements wSearch false (fun _ => GenOutcome.failure)
            emptyAgentState wReqs).1 (Requirement.mk "LM358" 80).part_number = some e
        ∧ e.requested_quantity = (Requirement.mk "LM358" 80).quantity
        ∧ e.component = (wSearch (Requirement.mk "LM358" 80).part_number).map
            (builtComponent false ((fun _ => GenOutcome.failure) (Requirement.mk "LM358" 80).part_number)
              (Requirement.mk "LM358" 80).part_number)) :=
  ⟨⟨by decide, by decide, by decide⟩,
   c6_failure_isolation wSearch false (fun _ => GenOutcome.failure) emptyAgentState wReqs
     (by decide) (by decide) (Requirement.mk "LM358" 80) (by decide)⟩

/-- C7: every sourcing result built by `source_requirements` satisfies the
invariant that each entry has requested quantity strictly positive, and
whenever both the component and the risk report of an entry are present
they carry the entry's key as their identifier. -/
theorem c7_sourcing_invariant (search : String → Option ComponentData) (client : Bool)
    (assess : String → GenOutcome) (st : AgentState) (reqs : List Requirement) :
    ((source_requirements search client assess st reqs).1).all entryOk = true :=
  aux_all_ok search client assess reqs [] st rfl

/-- C8: the structured-response parser falls back, when direct JSON parsing
fails, to the span from the first opening brace to the last closing brace
(greedy longest match) and parses that span; on the concrete prose-wrapped
text it recovers the embedded object with risk_score 7 and empty
risk_factors. -/
theorem c8_structured_parse :
    (∀ s sub : String, jsonParse s = none → jsonSpan s = some sub →
        assessParsed s = jsonParse sub)
    ∧ (∀ s : String, jsonParse s = none → jsonSpan s = none →
        assessParsed s = some (JValue.jobj default_result))
    ∧ (∀ (s : String) (i j : Nat),
        s.data.get? i = some lbrace →
        (∀ (k : Nat) (d : Char), k < i → s.data.get? k = some d → d ≠ lbrace) →
        s.data.get? j = some rbrace →
        (∀ (k : Nat) (d : Char), j < k → s.data.get? k = some d → d ≠ rbrace) →
        i < j →
        jsonSpan s = some (String.mk ((s.data.drop i).take (j - i + 1))))
    ∧ assessParsed "Sure! Here is the result: \x7b\"risk_score\": 7, \"risk_factors\": []\x7d"
        = some (JValue.jobj [("risk_score", JValue.jnum 7), ("risk_factors", JValue.jarr [])]) := by
  refine ⟨?_, ?_, jsonSpan_first_last, rfl⟩
  · intro s sub h1 h2
    unfold assessParsed
    simp only [h1, h2]
  · intro s h1 h2
    unfold assessParsed
    simp only [h1, h2]

/-- Witness for C8: the prose-wrapped text fails direct parsing, has the
expected brace span, and the parser's result is the parse of that span. -/
theorem c8_witness :
    (jsonParse "Sure! Here is the result: \x7b\"risk_score\": 7, \"risk_factors\": []\x7d" = none
     ∧ jsonSpan "Sure! Here is the result: \x7b\"risk_score\": 7, \"risk_factors\": []\x7d"
         = some "\x7b\"risk_score\": 7, \"risk_factors\": []\x7d")
    ∧ assessParsed "Sure! Here is the result: \x7b\"risk_score\": 7, \"risk_factors\": []\x7d"
        = jsonParse "\x7b\"risk_score\": 7, \"risk_factors\": []\x7d" :=
  ⟨⟨rfl, rfl⟩,
   c8_structured_parse.1
     "Sure! Here is the result: \x7b\"risk_score\": 7, \"risk_factors\": []\x7d"
     "\x7b\"risk_score\": 7, \"risk_factors\": []\x7d" rfl rfl⟩

/-- C9 counterexample: a present non-list risk_factors value is passed
through unchanged rather than defaulted to the empty list, and a present
non-numeric supplier_rating yields the fallback record's 6.0 rather than
the stated numeric default 5.0 — the claim as stated fails on both. -/
theorem c9_counterexample :
    ((coerce_assessment "LM741" (JValue.jobj [("risk_factors", JValue.jstr "high")])).risk_factors
       = JValue.jstr "high"
     ∧ JValue.jstr "high" ≠ JValue.jarr [])
    ∧ ((coerce_assessment "LM741"
          (JValue.jobj [("supplier_rating", JValue.jstr "bad")])).supplier_rating = 6
       ∧ (6 : ℚ) ≠ 5) :=
  ⟨⟨rfl, fun h => JValue.noConfusion h⟩, ⟨rfl, by norm_num⟩⟩

/-- C9 (amended): list fields default to the empty list only when missing —
a present non-list value is passed through unchanged; numeric fields
default to 5.0 when missing, and when a present numeric field fails float
coercion the entire assessment is replaced by the fixed fallback record
(risk_score 5.0, supplier_rating 6.0, fixed factor and strategy lists);
in particular risk_score is 5.0 whenever the field is missing. -/
theorem c9_coercion (pn : String) (fields : List (String × JValue)) :
    (∀ rs sr : ℚ,
        pyFloat (dictGetD fields "risk_score" (JValue.jfloat 5)) = some rs →
        pyFloat (dictGetD fields "supplier_rating" (JValue.jfloat 5)) = some sr →
        coerce_assessment pn (JValue.jobj fields)
          = ⟨pn, dictGetD fields "risk_factors" (JValue.jarr []), rs,
              dictGetD fields "mitigation_strategies" (JValue.jarr []), sr⟩)
    ∧ ((pyFloat (dictGetD fields "risk_score" (JValue.jfloat 5)) = none
         ∨ pyFloat (dictGetD fields "supplier_rating" (JValue.jfloat 5)) = none) →
        coerce_assessment pn (JValue.jobj fields) = fallbackAssessment pn)
    ∧ (dictGet? fields "risk_score" = none →
        (coerce_assessment pn (JValue.jobj fields)).risk_score = 5) := by
  refine ⟨?_, ?_, ?_⟩
  · intro rs sr h1 h2
    unfold coerce_assessment
    simp only [h1, h2]
  · intro h
    unfold coerce_assessment
    rcases h with h | h
    · rcases h2 : pyFloat (dictGetD fields "supplier_rating" (JValue.jfloat 5)) with _ | sr <;>
        simp only [h, h2]
    · rcases h2 : pyFloat (dictGetD fields "risk_score" (JValue.jfloat 5)) with _ | rs <;>
        simp only [h, h2]
  · intro h
    have h5 : dictGetD fields "risk_score" (JValue.jfloat 5) = JValue.jfloat 5 := by
      unfold dictGetD
      rw [h]
      rfl
    unfold coerce_assessment
    simp only [h5]
    rcases pyFloat (dictGetD fields "supplier_rating" (JValue.jfloat 5)) with _ | sr <;> rfl

/-- Witness for C9's amended theorem with both numeric fields coercible. -/
theorem c9_witness :
    (pyFloat (dictGetD ([("risk_score", JValue.jfloat 7)] : List (String × JValue))
        "risk_score" (JValue.jfloat 5)) = some 7
     ∧ pyFloat (dictGetD ([("risk_score", JValue.jfloat 7)] : List (String × JValue))
        "supplier_rating" (JValue.jfloat 5)) = some 5)
    ∧ coerce_assessment "OP07" (JValue.jobj [("risk_score", JValue.jfloat 7)])
        = ⟨"OP07",
           dictGetD ([("risk_score", JValue.jfloat 7)] : List (String × JValue))
             "risk_factors" (JValue.jarr []),
           7,
           dictGetD ([("risk_score", JValue.jfloat 7)] : List (String × JValue))
             "mitigation_strategies" (JValue.jarr []),
           5⟩ :=
  ⟨⟨rfl, rfl⟩, (c9_coercion "OP07" [("risk_score", JValue.jfloat 7)]).1 7 5 rfl rfl⟩

/-- C10: the simulated component lookup ignores its argument and returns
the same fixed mock record for every identifier, so `source_component`
with the actual search always returns a component and every entry of a
sourcing result built with the actual lookup has a present component —
the component-absent branch is unreachable in this code. -/
theorem c10_lookup_total :
    (∀ a b : String, search_component a = search_component b)
    ∧ (∀ (client : Bool) (resp : GenOutcome) (st : AgentState) (pn : String) (qty : Int),
        ((source_component actualSearch client resp st pn qty).1).isSome = true)
    ∧ (∀ (client : Bool) (assess : String → GenOutcome) (st : AgentState)
          (reqs : List Requirement),
        ((source_requirements actualSearch client assess st reqs).1).all
          (fun ke => ke.2.component.isSome) = true) := by
  refine ⟨fun a b => rfl, ?_, ?_⟩
  · intro client resp st pn qty
    rw [source_component_fst]
    rfl
  · intro client assess st reqs
    exact aux_all_component client assess reqs [] st rfl

end SupplyChain
